import Mathlib

/-!
Verification of the express-zod-contract adapter (src/src/index.ts).

The adapter `contract` takes a contract specification (optional zod input
validators for query/params/body/headers, an optional output validator used
only for typing, a handler, and two optional hooks) and produces a request
handler.  We shallowly embed that handler as a pure function from a request
to the ordered list of observable events it performs (validator invocations,
the handler call, hook calls, the `res.json` call with its envelope, the
log-sink call, and console diagnostics).  Raw JS values at the boundary are
modelled by a flat JSON-like carrier `JsValue`, sufficient for everything the
adapter itself inspects (it only ever looks inside the headers object, via
`z.record(z.string())`).  Zod validators are consumed as capabilities
`JsValue → Except ZodError JsValue`, per the spec's boundary description.
-/

/-- Primitive JS values at the adapter boundary. -/
inductive JsPrim where
  | null
  | str (s : String)
  | num (n : Int)
deriving DecidableEq

/-- Flat JSON-like values: primitives and one-level string-keyed objects.
The adapter never inspects deeper structure. -/
inductive JsValue where
  | prim (p : JsPrim)
  | obj (fields : List (String × JsPrim))
deriving DecidableEq

/-- Name of a value's runtime type, used in zod-style issue messages. -/
def typeName : JsValue → String
  | .prim .null => "null"
  | .prim (.str _) => "string"
  | .prim (.num _) => "number"
  | .obj _ => "object"

/-- One field-level issue of a structured validation error: a field path and
a human-readable description (zod's `ZodIssue`, at the boundary). -/
structure ZodIssue where
  path : String
  message : String
deriving DecidableEq

/-- Structured validation error raised by a shape validator (zod's
`ZodError`): an ordered list of field-level issues. -/
structure ZodError where
  issues : List ZodIssue
deriving DecidableEq

/-- Log levels, from src/src/index.ts `LogLevels` keys. -/
inductive LogLevel where
  | debug
  | info
  | error
  | warn
deriving DecidableEq

/-- Numeric severity of each level, from src/src/index.ts `LogLevels`
(debug=0, info=1, error=2, warn=3; reproduced as-is). -/
def LogLevels : LogLevel → Nat
  | .debug => 0
  | .info => 1
  | .error => 2
  | .warn => 3

/-- One log event, from src/src/index.ts `LogParams`. -/
structure LogParams where
  level : LogLevel
  message : String
  tags : List String
  metadata : List (String × String)
deriving DecidableEq

/-- The response envelope written by `res.json`: `{ok, data, errors}`.
`data : Option JsValue` with `none` standing for JSON `null`. -/
structure Envelope where
  ok : Bool
  data : Option JsValue
  errors : List String
deriving DecidableEq

/-- The parsed inputs handed to the handler. -/
structure Inputs where
  query : JsValue
  params : JsValue
  body : JsValue
  headers : JsValue
deriving DecidableEq

/-- The four input channels, in the fixed order the adapter validates them. -/
inductive Channel where
  | query
  | params
  | body
  | headers
deriving DecidableEq

/-- Position of a channel in the fixed validation order
query → params → body → headers. -/
def chIdx : Channel → Nat
  | .query => 0
  | .params => 1
  | .body => 2
  | .headers => 3

/-- Classification of a thrown JS exception, matching the adapter's catch
chain: `error instanceof z.ZodError`, `error instanceof ContractError`
(the business error carrying message and numeric code), anything else. -/
inductive JsError where
  | zodError (e : ZodError)
  | contractError (message : String) (code : Int)
  | other (v : JsValue)
deriving DecidableEq

/-- A shape validator consumed as a capability: parse the raw value or raise
a structured validation error. -/
def Validator : Type := JsValue → Except ZodError JsValue

/-- The process-wide logging sink, from src/src/index.ts `LoggingFunction`:
delivers a batch of log events, possibly failing (a rejected promise,
carrying an arbitrary JS error value). -/
def LoggingFunction : Type := List LogParams → Except JsValue Unit

/-- The mutable process-wide slot holding the configured logger, from
src/src/index.ts `$contractContext`. -/
structure ContractContext where
  logger : Option LoggingFunction

/-- Source `defineLogger`: replace the process-wide logger slot. -/
def defineLogger (fn : LoggingFunction) (_st : ContractContext) : ContractContext :=
  { logger := some fn }

/-- Contract specification, from src/src/index.ts `ContractInput`.
The handler is modelled as a function from the parsed inputs to the pair of
(log events it appended via `ctx.log`, its outcome): returning a value, or
throwing — `ctx.error(message, code)` throws `ContractError` (so a handler
that calls it has outcome `.error (.contractError message code)`), and any
other exception is `.zodError`/`.other`.  `result` is the output validator,
present only for static typing in the source and never consulted at
runtime.  Hooks return `Except JsValue Unit`: `.error e` models a rejected
promise with reason `e`. -/
structure ContractSpec where
  query : Option Validator
  params : Option Validator
  body : Option Validator
  headers : Option Validator
  result : Option Validator
  handler : Inputs → List LogParams × Except JsError JsValue
  onUnexpectedError : Option (JsValue → Except JsValue Unit)
  beforeResponse : Option (JsValue → Except JsValue Unit)

/-- An inbound request's four raw fields. -/
structure Request where
  query : JsValue
  params : JsValue
  body : JsValue
  headers : JsValue

/-- Observable events of one invocation of the built request handler, in
execution order.  `validate ch` marks the execution of a shape parse on
channel `ch`; `resJson` is the single serialization of the response
envelope; `sinkCall` is the delivery of the buffered log events to the
configured sink; `consoleError`/`consoleLog` are process diagnostics. -/
inductive Event where
  | validate (ch : Channel)
  | handlerCall (ins : Inputs)
  | beforeResponseCall (result : JsValue)
  | onUnexpectedErrorCall (err : JsValue)
  | resJson (env : Envelope)
  | sinkCall (logs : List LogParams)
  | consoleError (msg : String)
  | consoleLog (msg : String)
deriving DecidableEq

/-! ### The `";;;"` join/split used for validation errors

Source line 107 renders a `ZodError` with
`fromZodError(error, { issueSeparator: ";;;" })` — the validator-error
library joins one rendered message per issue with the separator `";;;"` —
and line 111 splits the resulting message string back on `";;;"`.  We model
the round trip at the character level: `List.intercalate` for the join and
`splitSemis`, a faithful translation of JavaScript
`String.prototype.split(";;;")`, for the split. -/

/-- Prepend a character to the first chunk of a split result. -/
def consHead (c : Char) : List (List Char) → List (List Char)
  | [] => [[c]]
  | h :: t => (c :: h) :: t

/-- JavaScript `s.split(";;;")` over the characters of `s`: scan left to
right, cutting at each occurrence of three consecutive semicolons. -/
def splitSemis : List Char → List (List Char)
  | [] => [[]]
  | [a] => [[a]]
  | [a, b] => [[a, b]]
  | a :: b :: c :: rest =>
    if a = ';' ∧ b = ';' ∧ c = ';' then [] :: splitSemis rest
    else consHead a (splitSemis (b :: c :: rest))

/-- Whether a character sequence contains three consecutive semicolons
(an occurrence of the separator `";;;"`). -/
def hasSemis : List Char → Bool
  | a :: b :: c :: rest => (a = ';' && b = ';' && c = ';') || hasSemis (b :: c :: rest)
  | _ => false

theorem consHead_ne_nil (c : Char) (l : List (List Char)) : consHead c l ≠ [] := by
  cases l <;> simp [consHead]

theorem splitSemis_cons₃ (a b c : Char) (rest : List Char) :
    splitSemis (a :: b :: c :: rest) =
      if a = ';' ∧ b = ';' ∧ c = ';' then [] :: splitSemis rest
      else consHead a (splitSemis (b :: c :: rest)) := rfl

theorem hasSemis_cons₃ (a b c : Char) (rest : List Char) :
    hasSemis (a :: b :: c :: rest) =
      ((a = ';' && b = ';' && c = ';') || hasSemis (b :: c :: rest)) := rfl

theorem splitSemis_ne_nil (l : List Char) : splitSemis l ≠ [] := by
  match l with
  | [] => simp [splitSemis]
  | [a] => simp [splitSemis]
  | [a, b] => simp [splitSemis]
  | a :: b :: c :: rest =>
    rw [splitSemis_cons₃]
    split
    · simp
    · exact consHead_ne_nil a _

theorem not_semis_of_hasSemis_false {a b c : Char} {rest : List Char}
    (h : hasSemis (a :: b :: c :: rest) = false) :
    ¬(a = ';' ∧ b = ';' ∧ c = ';') := by
  rw [hasSemis_cons₃] at h
  rintro ⟨ha, hb, hc⟩
  subst ha
  subst hb
  subst hc
  simp at h

theorem hasSemis_tail_false {a b c : Char} {rest : List Char}
    (h : hasSemis (a :: b :: c :: rest) = false) :
    hasSemis (b :: c :: rest) = false := by
  rw [hasSemis_cons₃] at h
  simp only [Bool.or_eq_false_iff] at h
  exact h.2

theorem splitSemis_of_not_hasSemis (x : List Char) (h : hasSemis x = false) :
    splitSemis x = [x] := by
  induction x with
  | nil => rfl
  | cons a tl ih =>
    rcases tl with _ | ⟨b, tl2⟩
    · rfl
    rcases tl2 with _ | ⟨c, rest⟩
    · rfl
    rw [splitSemis_cons₃, if_neg (not_semis_of_hasSemis_false h),
      ih (hasSemis_tail_false h), consHead]

theorem splitSemis_append_semis (rest : List Char) (x : List Char)
    (hs : hasSemis x = false) (hl : x.getLast? ≠ some ';') :
    splitSemis (x ++ ';' :: ';' :: ';' :: rest) = x :: splitSemis rest := by
  induction x with
  | nil =>
    rw [List.nil_append, splitSemis_cons₃, if_pos ⟨rfl, rfl, rfl⟩]
  | cons a tl ih =>
    rcases tl with _ | ⟨b, tl2⟩
    · simp only [List.getLast?_singleton, ne_eq, Option.some.injEq] at hl
      simp only [List.cons_append, List.nil_append]
      rw [splitSemis_cons₃, if_neg (fun hcond => hl hcond.1),
        splitSemis_cons₃, if_pos ⟨rfl, rfl, rfl⟩, consHead]
    rcases tl2 with _ | ⟨c, tl3⟩
    · simp only [List.getLast?_cons_cons, List.getLast?_singleton, ne_eq,
        Option.some.injEq] at hl
      have ihb := ih rfl (by simpa using hl)
      simp only [List.cons_append, List.nil_append] at ihb ⊢
      rw [splitSemis_cons₃, if_neg (fun hcond => hl hcond.2.1), ihb, consHead]
    · have hl2 : (b :: c :: tl3).getLast? ≠ some ';' := by
        rwa [List.getLast?_cons_cons] at hl
      have ihx := ih (hasSemis_tail_false hs) hl2
      simp only [List.cons_append] at ihx ⊢
      rw [splitSemis_cons₃, if_neg (not_semis_of_hasSemis_false hs), ihx, consHead]

theorem intercalate_single (sep : List Char) (a : List Char) :
    List.intercalate sep [a] = a := by
  simp [List.intercalate, List.intersperse]

theorem intercalate_cons₂ (sep : List Char) (a b : List Char) (l : List (List Char)) :
    List.intercalate sep (a :: b :: l) = a ++ sep ++ List.intercalate sep (b :: l) := by
  simp [List.intercalate, List.intersperse]

theorem splitSemis_intercalate (msgs : List (List Char)) (hne : msgs ≠ [])
    (hg : ∀ m ∈ msgs, hasSemis m = false ∧ m.getLast? ≠ some ';') :
    splitSemis (List.intercalate [';', ';', ';'] msgs) = msgs := by
  induction msgs with
  | nil => exact absurd rfl hne
  | cons m tl ih =>
    rcases tl with _ | ⟨m2, tl2⟩
    · rw [intercalate_single]
      exact splitSemis_of_not_hasSemis m (hg m (by simp)).1
    · have hgm := hg m (by simp)
      rw [intercalate_cons₂, List.append_assoc,
        show ([';', ';', ';'] ++ List.intercalate [';', ';', ';'] (m2 :: tl2)) =
          ';' :: ';' :: ';' :: List.intercalate [';', ';', ';'] (m2 :: tl2) from rfl,
        splitSemis_append_semis _ m hgm.1 hgm.2,
        ih (by simp) (fun x hx => hg x (by simp [hx]))]

/-! ### Rendering a structured validation error into envelope messages -/

/-- Rendering of one issue by the validator-error library: the issue's
description and field path joined into one human-readable message
(description, then ` at "path"`; just the description when the path is
empty).  Consumed as a boundary capability, per the spec. -/
def issueText (i : ZodIssue) : String :=
  if i.path = "" then i.message
  else i.message ++ " at " ++ "\"" ++ i.path ++ "\""

/-- Source lines 107–111: render the `ZodError` with issue separator
`";;;"` (one `issueText` per issue, joined by `";;;"`) and split the
resulting message back on `";;;"` to obtain the envelope's `errors`. -/
def validationErrors (e : ZodError) : List String :=
  (splitSemis (List.intercalate [';', ';', ';']
    (e.issues.map (fun i => (issueText i).toList)))).map (fun cs => String.mk cs)

/-- The zod schema `z.record(z.string())` used for headers when no headers
validator is supplied (source line 76): the raw value must be an object and
every field value must be a string; otherwise a structured validation error
is raised, one issue per offending field (or a single issue when the value
is not an object at all). -/
def zRecordString (raw : JsValue) : Except ZodError JsValue :=
  match raw with
  | .obj fields =>
    match fields.filterMap (fun kv =>
      match kv.2 with
      | .str _ => none
      | p => some { path := kv.1, message := "Expected string, received " ++ typeName (.prim p) : ZodIssue }) with
    | [] => .ok (.obj fields)
    | i :: is => .error ⟨i :: is⟩
  | v => .error ⟨[{ path := "", message := "Expected object, received " ++ typeName v }]⟩

/-! ### The adapter pipeline -/

/-- Source lines 73–75: `contract.X ? contract.X.parse(req.X) : req.X` —
run the configured validator on the raw field, or pass the raw field
through unchanged. -/
def parseStep (ov : Option Validator) (raw : JsValue) : Except ZodError JsValue :=
  match ov with
  | some v => v raw
  | none => .ok raw

/-- The validator-invocation events of `parseStep`: a `validate` event when
a validator is configured (and hence executed), nothing otherwise. -/
def parseEvents (ov : Option Validator) (ch : Channel) : List Event :=
  match ov with
  | some _ => [Event.validate ch]
  | none => []

/-- Source line 76: headers are parsed by the configured validator, or by
`z.record(z.string())` when none is supplied — never passed through raw. -/
def headersResult (ov : Option Validator) (raw : JsValue) : Except ZodError JsValue :=
  match ov with
  | some v => v raw
  | none => zRecordString raw

/-- The result the adapter's validation stage computes for one channel
(each channel's parse depends only on its own raw field). -/
def channelRes (c : ContractSpec) (req : Request) : Channel → Except ZodError JsValue
  | .query => parseStep c.query req.query
  | .params => parseStep c.params req.params
  | .body => parseStep c.body req.body
  | .headers => headersResult c.headers req.headers

/-- Source lines 94–98: on success, if a `beforeResponse` hook is
configured it is awaited with the handler's result; a rejection is caught
and written to `console.error`, never rethrown. -/
def brEvents (c : ContractSpec) (data : JsValue) : List Event :=
  match c.beforeResponse with
  | some h =>
    Event.beforeResponseCall data ::
      (match h data with
       | .ok _ => []
       | .error _ => [Event.consoleError "Error occured in beforeResponse hook:"])
  | none => []

/-- Source lines 120–124: on an unexpected error, if an
`onUnexpectedError` hook is configured it is awaited with the original
error value; a rejection is caught and written to `console.error`, never
rethrown. -/
def ueEvents (c : ContractSpec) (v : JsValue) : List Event :=
  match c.onUnexpectedError with
  | some h =>
    Event.onUnexpectedErrorCall v ::
      (match h v with
       | .ok _ => []
       | .error _ => [Event.consoleError "Error occured in onUnexpectedError hook:"])
  | none => []

/-- Source lines 105–131, the catch block: classify the thrown error —
`z.ZodError` (validation-style envelope), `ContractError` (business
envelope carrying only the message), anything else (optional
`onUnexpectedError` hook, then the generic envelope). -/
def catchBlock (c : ContractSpec) : JsError → List Event
  | .zodError e =>
    [Event.resJson { ok := false, data := none, errors := validationErrors e }]
  | .contractError message _code =>
    [Event.resJson { ok := false, data := none, errors := [message] }]
  | .other v =>
    ueEvents c v ++
      [Event.resJson { ok := false, data := none, errors := ["Something went wrong"] }]

/-- Source lines 132–138, the finally block: if a logger is configured,
await it with the buffered log events (a rejection is caught and written to
`console.error`); otherwise print `"No logger defined"`. -/
def finallyBlock (st : ContractContext) (logs : List LogParams) : List Event :=
  match st.logger with
  | some f =>
    Event.sinkCall logs ::
      (match f logs with
       | .ok _ => []
       | .error _ => [Event.consoleError "Error occured in logger:"])
  | none => [Event.consoleLog "No logger defined"]

/-- Source lines 72–104, the try block: validate query, params, body,
headers in that order (each parse raising aborts the block), build the
context, run the handler, run the optional `beforeResponse` hook, and send
the success envelope.  Returns the events performed, the log events the
handler appended via `ctx.log` (the `logs` array, empty when the handler
never ran), and the escaped exception if any. -/
def tryBlock (c : ContractSpec) (req : Request) :
    List Event × List LogParams × Option JsError :=
  match parseStep c.query req.query with
  | .error ze => (parseEvents c.query Channel.query, [], some (JsError.zodError ze))
  | .ok query =>
    match parseStep c.params req.params with
    | .error ze =>
      (parseEvents c.query Channel.query ++ parseEvents c.params Channel.params,
        [], some (JsError.zodError ze))
    | .ok params =>
      match parseStep c.body req.body with
      | .error ze =>
        (parseEvents c.query Channel.query ++ parseEvents c.params Channel.params ++
          parseEvents c.body Channel.body, [], some (JsError.zodError ze))
      | .ok body =>
        match headersResult c.headers req.headers with
        | .error ze =>
          (parseEvents c.query Channel.query ++ parseEvents c.params Channel.params ++
            parseEvents c.body Channel.body ++ [Event.validate Channel.headers],
            [], some (JsError.zodError ze))
        | .ok headers =>
          let ins : Inputs :=
            { query := query, params := params, body := body, headers := headers }
          match (c.handler ins).2 with
          | .error e =>
            (parseEvents c.query Channel.query ++ parseEvents c.params Channel.params ++
              parseEvents c.body Channel.body ++ [Event.validate Channel.headers] ++
              [Event.handlerCall ins], (c.handler ins).1, some e)
          | .ok data =>
            (parseEvents c.query Channel.query ++ parseEvents c.params Channel.params ++
              parseEvents c.body Channel.body ++ [Event.validate Channel.headers] ++
              [Event.handlerCall ins] ++ brEvents c data ++
              [Event.resJson { ok := true, data := some data, errors := [] }],
              (c.handler ins).1, none)

/-- Source `contract` (lines 69–140): the built request handler.  `contract
c` is the handler the factory returns; one invocation on a request, with
the process-wide context `st` holding the configured logger, performs the
try block, then — when an exception escaped — the catch block, and always
the finally block with the buffered log events.  The value is the ordered
list of observable events of that invocation. -/
def contract (c : ContractSpec) (st : ContractContext) (req : Request) : List Event :=
  (tryBlock c req).1 ++
    (match (tryBlock c req).2.2 with
     | none => []
     | some e => catchBlock c e) ++
    finallyBlock st (tryBlock c req).2.1

/-- The log events accumulated during a request (the `logs` array at flush
time). -/
def requestLogs (c : ContractSpec) (req : Request) : List LogParams :=
  (tryBlock c req).2.1

/-! ### Trace observations -/

/-- The envelopes passed to `res.json`, in order. -/
def resJsonEvents (l : List Event) : List Envelope :=
  l.filterMap (fun e => match e with | .resJson env => some env | _ => none)

/-- The log batches delivered to the sink, in order. -/
def sinkCalls (l : List Event) : List (List LogParams) :=
  l.filterMap (fun e => match e with | .sinkCall logs => some logs | _ => none)

/-- The error values passed to the `onUnexpectedError` hook, in order. -/
def unexpectedCalls (l : List Event) : List JsValue :=
  l.filterMap (fun e => match e with | .onUnexpectedErrorCall v => some v | _ => none)

/-- The channels on which a shape parse was executed, in order. -/
def validatedChannels (l : List Event) : List Channel :=
  l.filterMap (fun e => match e with | .validate ch => some ch | _ => none)

/-- The envelope `errors` the catch block produces for each error class. -/
def errMsgs : JsError → List String
  | .zodError e => validationErrors e
  | .contractError message _code => [message]
  | .other _ => ["Something went wrong"]

/-- The inputs the handler was invoked with, in order. -/
def handlerCalls (l : List Event) : List Inputs :=
  l.filterMap (fun e => match e with | .handlerCall ins => some ins | _ => none)

@[simp] theorem resJsonEvents_nil : resJsonEvents [] = [] := rfl

@[simp] theorem sinkCalls_nil : sinkCalls [] = [] := rfl

@[simp] theorem unexpectedCalls_nil : unexpectedCalls [] = [] := rfl

@[simp] theorem validatedChannels_nil : validatedChannels [] = [] := rfl

@[simp] theorem handlerCalls_nil : handlerCalls [] = [] := rfl

@[simp] theorem resJsonEvents_append (l l' : List Event) :
    resJsonEvents (l ++ l') = resJsonEvents l ++ resJsonEvents l' :=
  List.filterMap_append l l' _

@[simp] theorem sinkCalls_append (l l' : List Event) :
    sinkCalls (l ++ l') = sinkCalls l ++ sinkCalls l' :=
  List.filterMap_append l l' _

@[simp] theorem unexpectedCalls_append (l l' : List Event) :
    unexpectedCalls (l ++ l') = unexpectedCalls l ++ unexpectedCalls l' :=
  List.filterMap_append l l' _

@[simp] theorem validatedChannels_append (l l' : List Event) :
    validatedChannels (l ++ l') = validatedChannels l ++ validatedChannels l' :=
  List.filterMap_append l l' _

@[simp] theorem handlerCalls_append (l l' : List Event) :
    handlerCalls (l ++ l') = handlerCalls l ++ handlerCalls l' :=
  List.filterMap_append l l' _

@[simp] theorem resJsonEvents_validate (ch : Channel) (l : List Event) :
    resJsonEvents (Event.validate ch :: l) = resJsonEvents l := rfl

@[simp] theorem resJsonEvents_handlerCall (ins : Inputs) (l : List Event) :
    resJsonEvents (Event.handlerCall ins :: l) = resJsonEvents l := rfl

@[simp] theorem resJsonEvents_beforeResponseCall (r : JsValue) (l : List Event) :
    resJsonEvents (Event.beforeResponseCall r :: l) = resJsonEvents l := rfl

@[simp] theorem resJsonEvents_onUnexpectedErrorCall (v : JsValue) (l : List Event) :
    resJsonEvents (Event.onUnexpectedErrorCall v :: l) = resJsonEvents l := rfl

@[simp] theorem resJsonEvents_resJson (env : Envelope) (l : List Event) :
    resJsonEvents (Event.resJson env :: l) = env :: resJsonEvents l := rfl

@[simp] theorem resJsonEvents_sinkCall (lg : List LogParams) (l : List Event) :
    resJsonEvents (Event.sinkCall lg :: l) = resJsonEvents l := rfl

@[simp] theorem resJsonEvents_consoleError (s : String) (l : List Event) :
    resJsonEvents (Event.consoleError s :: l) = resJsonEvents l := rfl

@[simp] theorem resJsonEvents_consoleLog (s : String) (l : List Event) :
    resJsonEvents (Event.consoleLog s :: l) = resJsonEvents l := rfl

@[simp] theorem sinkCalls_validate (ch : Channel) (l : List Event) :
    sinkCalls (Event.validate ch :: l) = sinkCalls l := rfl

@[simp] theorem sinkCalls_handlerCall (ins : Inputs) (l : List Event) :
    sinkCalls (Event.handlerCall ins :: l) = sinkCalls l := rfl

@[simp] theorem sinkCalls_beforeResponseCall (r : JsValue) (l : List Event) :
    sinkCalls (Event.beforeResponseCall r :: l) = sinkCalls l := rfl

@[simp] theorem sinkCalls_onUnexpectedErrorCall (v : JsValue) (l : List Event) :
    sinkCalls (Event.onUnexpectedErrorCall v :: l) = sinkCalls l := rfl

@[simp] theorem sinkCalls_resJson (env : Envelope) (l : List Event) :
    sinkCalls (Event.resJson env :: l) = sinkCalls l := rfl

@[simp] theorem sinkCalls_sinkCall (lg : List LogParams) (l : List Event) :
    sinkCalls (Event.sinkCall lg :: l) = lg :: sinkCalls l := rfl

@[simp] theorem sinkCalls_consoleError (s : String) (l : List Event) :
    sinkCalls (Event.consoleError s :: l) = sinkCalls l := rfl

@[simp] theorem sinkCalls_consoleLog (s : String) (l : List Event) :
    sinkCalls (Event.consoleLog s :: l) = sinkCalls l := rfl

@[simp] theorem unexpectedCalls_validate (ch : Channel) (l : List Event) :
    unexpectedCalls (Event.validate ch :: l) = unexpectedCalls l := rfl

@[simp] theorem unexpectedCalls_handlerCall (ins : Inputs) (l : List Event) :
    unexpectedCalls (Event.handlerCall ins :: l) = unexpectedCalls l := rfl

@[simp] theorem unexpectedCalls_beforeResponseCall (r : JsValue) (l : List Event) :
    unexpectedCalls (Event.beforeResponseCall r :: l) = unexpectedCalls l := rfl

@[simp] theorem unexpectedCalls_onUnexpectedErrorCall (v : JsValue) (l : List Event) :
    unexpectedCalls (Event.onUnexpectedErrorCall v :: l) = v :: unexpectedCalls l := rfl

@[simp] theorem unexpectedCalls_resJson (env : Envelope) (l : List Event) :
    unexpectedCalls (Event.resJson env :: l) = unexpectedCalls l := rfl

@[simp] theorem unexpectedCalls_sinkCall (lg : List LogParams) (l : List Event) :
    unexpectedCalls (Event.sinkCall lg :: l) = unexpectedCalls l := rfl

@[simp] theorem unexpectedCalls_consoleError (s : String) (l : List Event) :
    unexpectedCalls (Event.consoleError s :: l) = unexpectedCalls l := rfl

@[simp] theorem unexpectedCalls_consoleLog (s : String) (l : List Event) :
    unexpectedCalls (Event.consoleLog s :: l) = unexpectedCalls l := rfl

@[simp] theorem validatedChannels_validate (ch : Channel) (l : List Event) :
    validatedChannels (Event.validate ch :: l) = ch :: validatedChannels l := rfl

@[simp] theorem validatedChannels_handlerCall (ins : Inputs) (l : List Event) :
    validatedChannels (Event.handlerCall ins :: l) = validatedChannels l := rfl

@[simp] theorem validatedChannels_beforeResponseCall (r : JsValue) (l : List Event) :
    validatedChannels (Event.beforeResponseCall r :: l) = validatedChannels l := rfl

@[simp] theorem validatedChannels_onUnexpectedErrorCall (v : JsValue) (l : List Event) :
    validatedChannels (Event.onUnexpectedErrorCall v :: l) = validatedChannels l := rfl

@[simp] theorem validatedChannels_resJson (env : Envelope) (l : List Event) :
    validatedChannels (Event.resJson env :: l) = validatedChannels l := rfl

@[simp] theorem validatedChannels_sinkCall (lg : List LogParams) (l : List Event) :
    validatedChannels (Event.sinkCall lg :: l) = validatedChannels l := rfl

@[simp] theorem validatedChannels_consoleError (s : String) (l : List Event) :
    validatedChannels (Event.consoleError s :: l) = validatedChannels l := rfl

@[simp] theorem validatedChannels_consoleLog (s : String) (l : List Event) :
    validatedChannels (Event.consoleLog s :: l) = validatedChannels l := rfl

@[simp] theorem handlerCalls_validate (ch : Channel) (l : List Event) :
    handlerCalls (Event.validate ch :: l) = handlerCalls l := rfl

@[simp] theorem handlerCalls_handlerCall (ins : Inputs) (l : List Event) :
    handlerCalls (Event.handlerCall ins :: l) = ins :: handlerCalls l := rfl

@[simp] theorem handlerCalls_beforeResponseCall (r : JsValue) (l : List Event) :
    handlerCalls (Event.beforeResponseCall r :: l) = handlerCalls l := rfl

@[simp] theorem handlerCalls_onUnexpectedErrorCall (v : JsValue) (l : List Event) :
    handlerCalls (Event.onUnexpectedErrorCall v :: l) = handlerCalls l := rfl

@[simp] theorem handlerCalls_resJson (env : Envelope) (l : List Event) :
    handlerCalls (Event.resJson env :: l) = handlerCalls l := rfl

@[simp] theorem handlerCalls_sinkCall (lg : List LogParams) (l : List Event) :
    handlerCalls (Event.sinkCall lg :: l) = handlerCalls l := rfl

@[simp] theorem handlerCalls_consoleError (s : String) (l : List Event) :
    handlerCalls (Event.consoleError s :: l) = handlerCalls l := rfl

@[simp] theorem handlerCalls_consoleLog (s : String) (l : List Event) :
    handlerCalls (Event.consoleLog s :: l) = handlerCalls l := rfl

theorem validate_mem_iff (ch : Channel) (l : List Event) :
    Event.validate ch ∈ l ↔ ch ∈ validatedChannels l := by
  induction l with
  | nil => simp
  | cons e tl ih => cases e <;> simp [ih, validatedChannels]

theorem handlerCall_mem_iff (ins : Inputs) (l : List Event) :
    Event.handlerCall ins ∈ l ↔ ins ∈ handlerCalls l := by
  induction l with
  | nil => simp
  | cons e tl ih => cases e <;> simp [ih, handlerCalls]

@[simp] theorem resJsonEvents_parseEvents (ov : Option Validator) (ch : Channel) :
    resJsonEvents (parseEvents ov ch) = [] := by
  cases ov <;> simp [parseEvents]

@[simp] theorem sinkCalls_parseEvents (ov : Option Validator) (ch : Channel) :
    sinkCalls (parseEvents ov ch) = [] := by
  cases ov <;> simp [parseEvents]

@[simp] theorem unexpectedCalls_parseEvents (ov : Option Validator) (ch : Channel) :
    unexpectedCalls (parseEvents ov ch) = [] := by
  cases ov <;> simp [parseEvents]

@[simp] theorem handlerCalls_parseEvents (ov : Option Validator) (ch : Channel) :
    handlerCalls (parseEvents ov ch) = [] := by
  cases ov <;> simp [parseEvents]

@[simp] theorem mem_validatedChannels_parseEvents {ch' : Channel} {ov : Option Validator}
    {ch : Channel} :
    ch' ∈ validatedChannels (parseEvents ov ch) ↔ ov.isSome = true ∧ ch' = ch := by
  cases ov <;> simp [parseEvents]

theorem validatedChannels_parseEvents_sublist (ov : Option Validator) (ch : Channel) :
    List.Sublist (validatedChannels (parseEvents ov ch)) [ch] := by
  cases ov <;> simp [parseEvents]

@[simp] theorem resJsonEvents_brEvents (c : ContractSpec) (d : JsValue) :
    resJsonEvents (brEvents c d) = [] := by
  unfold brEvents
  rcases c.beforeResponse with _ | h
  · simp
  · rcases hd : h d with _ | _ <;> simp [hd]

@[simp] theorem sinkCalls_brEvents (c : ContractSpec) (d : JsValue) :
    sinkCalls (brEvents c d) = [] := by
  unfold brEvents
  rcases c.beforeResponse with _ | h
  · simp
  · rcases hd : h d with _ | _ <;> simp [hd]

@[simp] theorem unexpectedCalls_brEvents (c : ContractSpec) (d : JsValue) :
    unexpectedCalls (brEvents c d) = [] := by
  unfold brEvents
  rcases c.beforeResponse with _ | h
  · simp
  · rcases hd : h d with _ | _ <;> simp [hd]

@[simp] theorem handlerCalls_brEvents (c : ContractSpec) (d : JsValue) :
    handlerCalls (brEvents c d) = [] := by
  unfold brEvents
  rcases c.beforeResponse with _ | h
  · simp
  · rcases hd : h d with _ | _ <;> simp [hd]

@[simp] theorem validatedChannels_brEvents (c : ContractSpec) (d : JsValue) :
    validatedChannels (brEvents c d) = [] := by
  unfold brEvents
  rcases c.beforeResponse with _ | h
  · simp
  · rcases hd : h d with _ | _ <;> simp [hd]

@[simp] theorem resJsonEvents_ueEvents (c : ContractSpec) (v : JsValue) :
    resJsonEvents (ueEvents c v) = [] := by
  unfold ueEvents
  rcases c.onUnexpectedError with _ | h
  · simp
  · rcases hd : h v with _ | _ <;> simp [hd]

@[simp] theorem sinkCalls_ueEvents (c : ContractSpec) (v : JsValue) :
    sinkCalls (ueEvents c v) = [] := by
  unfold ueEvents
  rcases c.onUnexpectedError with _ | h
  · simp
  · rcases hd : h v with _ | _ <;> simp [hd]

@[simp] theorem handlerCalls_ueEvents (c : ContractSpec) (v : JsValue) :
    handlerCalls (ueEvents c v) = [] := by
  unfold ueEvents
  rcases c.onUnexpectedError with _ | h
  · simp
  · rcases hd : h v with _ | _ <;> simp [hd]

@[simp] theorem validatedChannels_ueEvents (c : ContractSpec) (v : JsValue) :
    validatedChannels (ueEvents c v) = [] := by
  unfold ueEvents
  rcases c.onUnexpectedError with _ | h
  · simp
  · rcases hd : h v with _ | _ <;> simp [hd]

theorem unexpectedCalls_ueEvents_some {c : ContractSpec} {h} (v : JsValue)
    (hc : c.onUnexpectedError = some h) :
    unexpectedCalls (ueEvents c v) = [v] := by
  cases hd : h v <;> simp [ueEvents, hc, hd]

theorem unexpectedCalls_ueEvents_none {c : ContractSpec} (v : JsValue)
    (hc : c.onUnexpectedError = none) :
    unexpectedCalls (ueEvents c v) = [] := by
  simp [ueEvents, hc]

theorem resJsonEvents_catchBlock (c : ContractSpec) (err : JsError) :
    resJsonEvents (catchBlock c err) =
      [{ ok := false, data := none, errors := errMsgs err }] := by
  cases err <;> simp [catchBlock, errMsgs]

@[simp] theorem sinkCalls_catchBlock (c : ContractSpec) (err : JsError) :
    sinkCalls (catchBlock c err) = [] := by
  cases err <;> simp [catchBlock]

@[simp] theorem handlerCalls_catchBlock (c : ContractSpec) (err : JsError) :
    handlerCalls (catchBlock c err) = [] := by
  cases err <;> simp [catchBlock]

@[simp] theorem validatedChannels_catchBlock (c : ContractSpec) (err : JsError) :
    validatedChannels (catchBlock c err) = [] := by
  cases err <;> simp [catchBlock]

@[simp] theorem resJsonEvents_finallyBlock (st : ContractContext) (logs : List LogParams) :
    resJsonEvents (finallyBlock st logs) = [] := by
  unfold finallyBlock
  rcases st.logger with _ | f
  · simp
  · rcases hd : f logs with _ | _ <;> simp [hd]

@[simp] theorem handlerCalls_finallyBlock (st : ContractContext) (logs : List LogParams) :
    handlerCalls (finallyBlock st logs) = [] := by
  unfold finallyBlock
  rcases st.logger with _ | f
  · simp
  · rcases hd : f logs with _ | _ <;> simp [hd]

@[simp] theorem validatedChannels_finallyBlock (st : ContractContext) (logs : List LogParams) :
    validatedChannels (finallyBlock st logs) = [] := by
  unfold finallyBlock
  rcases st.logger with _ | f
  · simp
  · rcases hd : f logs with _ | _ <;> simp [hd]

@[simp] theorem unexpectedCalls_finallyBlock (st : ContractContext) (logs : List LogParams) :
    unexpectedCalls (finallyBlock st logs) = [] := by
  unfold finallyBlock
  rcases st.logger with _ | f
  · simp
  · rcases hd : f logs with _ | _ <;> simp [hd]

theorem sinkCalls_finallyBlock_some {st : ContractContext} {f} (logs : List LogParams)
    (h : st.logger = some f) :
    sinkCalls (finallyBlock st logs) = [logs] := by
  cases hd : f logs <;> simp [finallyBlock, h, hd]

theorem sinkCalls_finallyBlock_none {st : ContractContext} (logs : List LogParams)
    (h : st.logger = none) :
    sinkCalls (finallyBlock st logs) = [] := by
  simp [finallyBlock, h]

theorem sinkCall_mem_finallyBlock_some {st : ContractContext} {f} (logs : List LogParams)
    (h : st.logger = some f) :
    Event.sinkCall logs ∈ finallyBlock st logs := by
  simp [finallyBlock, h]

theorem consoleLog_mem_finallyBlock_none {st : ContractContext} (logs : List LogParams)
    (h : st.logger = none) :
    Event.consoleLog "No logger defined" ∈ finallyBlock st logs := by
  simp [finallyBlock, h]

/-! ### Branch characterizations of the try block -/

theorem tryBlock_qerr {c : ContractSpec} {req : Request} {ze : ZodError}
    (hq : parseStep c.query req.query = .error ze) :
    tryBlock c req =
      (parseEvents c.query Channel.query, [], some (JsError.zodError ze)) := by
  simp [tryBlock, hq]

theorem tryBlock_perr {c : ContractSpec} {req : Request} {q : JsValue} {ze : ZodError}
    (hq : parseStep c.query req.query = .ok q)
    (hp : parseStep c.params req.params = .error ze) :
    tryBlock c req =
      (parseEvents c.query Channel.query ++ parseEvents c.params Channel.params,
        [], some (JsError.zodError ze)) := by
  simp [tryBlock, hq, hp]

theorem tryBlock_berr {c : ContractSpec} {req : Request} {q p : JsValue} {ze : ZodError}
    (hq : parseStep c.query req.query = .ok q)
    (hp : parseStep c.params req.params = .ok p)
    (hb : parseStep c.body req.body = .error ze) :
    tryBlock c req =
      (parseEvents c.query Channel.query ++ parseEvents c.params Channel.params ++
        parseEvents c.body Channel.body, [], some (JsError.zodError ze)) := by
  simp [tryBlock, hq, hp, hb]

theorem tryBlock_herr {c : ContractSpec} {req : Request} {q p b : JsValue} {ze : ZodError}
    (hq : parseStep c.query req.query = .ok q)
    (hp : parseStep c.params req.params = .ok p)
    (hb : parseStep c.body req.body = .ok b)
    (hh : headersResult c.headers req.headers = .error ze) :
    tryBlock c req =
      (parseEvents c.query Channel.query ++ parseEvents c.params Channel.params ++
        parseEvents c.body Channel.body ++ [Event.validate Channel.headers],
        [], some (JsError.zodError ze)) := by
  simp [tryBlock, hq, hp, hb, hh]

theorem tryBlock_handlerErr {c : ContractSpec} {req : Request} {q p b hd : JsValue}
    {e : JsError}
    (hq : parseStep c.query req.query = .ok q)
    (hp : parseStep c.params req.params = .ok p)
    (hb : parseStep c.body req.body = .ok b)
    (hh : headersResult c.headers req.headers = .ok hd)
    (hhand : (c.handler ⟨q, p, b, hd⟩).2 = .error e) :
    tryBlock c req =
      (parseEvents c.query Channel.query ++ parseEvents c.params Channel.params ++
        parseEvents c.body Channel.body ++ [Event.validate Channel.headers] ++
        [Event.handlerCall ⟨q, p, b, hd⟩],
        (c.handler ⟨q, p, b, hd⟩).1, some e) := by
  simp [tryBlock, hq, hp, hb, hh, hhand]

theorem tryBlock_ok {c : ContractSpec} {req : Request} {q p b hd d : JsValue}
    (hq : parseStep c.query req.query = .ok q)
    (hp : parseStep c.params req.params = .ok p)
    (hb : parseStep c.body req.body = .ok b)
    (hh : headersResult c.headers req.headers = .ok hd)
    (hhand : (c.handler ⟨q, p, b, hd⟩).2 = .ok d) :
    tryBlock c req =
      (parseEvents c.query Channel.query ++ parseEvents c.params Channel.params ++
        parseEvents c.body Channel.body ++ [Event.validate Channel.headers] ++
        [Event.handlerCall ⟨q, p, b, hd⟩] ++ brEvents c d ++
        [Event.resJson { ok := true, data := some d, errors := [] }],
        (c.handler ⟨q, p, b, hd⟩).1, none) := by
  simp [tryBlock, hq, hp, hb, hh, hhand]

theorem contract_eq_err {c : ContractSpec} {st : ContractContext} {req : Request}
    {err : JsError} (h : (tryBlock c req).2.2 = some err) :
    contract c st req =
      (tryBlock c req).1 ++ catchBlock c err ++ finallyBlock st (tryBlock c req).2.1 := by
  simp [contract, h]

theorem contract_eq_ok {c : ContractSpec} {st : ContractContext} {req : Request}
    (h : (tryBlock c req).2.2 = none) :
    contract c st req =
      (tryBlock c req).1 ++ finallyBlock st (tryBlock c req).2.1 := by
  simp [contract, h]

/-- The events the catch block performs before its `res.json` call: only the
unexpected-error branch does anything (the optional hook). -/
def catchPre (c : ContractSpec) : JsError → List Event
  | .other v => ueEvents c v
  | _ => []

theorem catchBlock_eq (c : ContractSpec) (err : JsError) :
    catchBlock c err =
      catchPre c err ++
        [Event.resJson { ok := false, data := none, errors := errMsgs err }] := by
  cases err <;> simp [catchBlock, catchPre, errMsgs]

@[simp] theorem resJsonEvents_catchPre (c : ContractSpec) (err : JsError) :
    resJsonEvents (catchPre c err) = [] := by
  cases err <;> simp [catchPre]

@[simp] theorem sinkCalls_catchPre (c : ContractSpec) (err : JsError) :
    sinkCalls (catchPre c err) = [] := by
  cases err <;> simp [catchPre]

@[simp] theorem handlerCalls_catchPre (c : ContractSpec) (err : JsError) :
    handlerCalls (catchPre c err) = [] := by
  cases err <;> simp [catchPre]

@[simp] theorem validatedChannels_catchPre (c : ContractSpec) (err : JsError) :
    validatedChannels (catchPre c err) = [] := by
  cases err <;> simp [catchPre]

theorem validationErrors_ne_nil (e : ZodError) : validationErrors e ≠ [] := by
  unfold validationErrors
  simp only [ne_eq, List.map_eq_nil_iff]
  exact splitSemis_ne_nil _

theorem errMsgs_ne_nil (err : JsError) : errMsgs err ≠ [] := by
  cases err with
  | zodError e => exact validationErrors_ne_nil e
  | contractError m code => simp [errMsgs]
  | other v => simp [errMsgs]

theorem resJson_mem_iff (env : Envelope) (l : List Event) :
    Event.resJson env ∈ l ↔ env ∈ resJsonEvents l := by
  induction l with
  | nil => simp
  | cons e tl ih => cases e <;> simp [ih, resJsonEvents]

@[simp] theorem validate_mem_parseEvents {ch' : Channel} {ov : Option Validator}
    {ch : Channel} :
    Event.validate ch' ∈ parseEvents ov ch ↔ ov.isSome = true ∧ ch' = ch := by
  cases ov <;> simp [parseEvents]

@[simp] theorem handlerCall_not_mem_parseEvents {ins : Inputs} {ov : Option Validator}
    {ch : Channel} :
    Event.handlerCall ins ∉ parseEvents ov ch := by
  cases ov <;> simp [parseEvents]

theorem validate_not_mem_of_nil {l : List Event} {ch : Channel}
    (h : validatedChannels l = []) : Event.validate ch ∉ l := by
  rw [validate_mem_iff, h]
  simp

theorem handlerCall_not_mem_of_nil {l : List Event} {ins : Inputs}
    (h : handlerCalls l = []) : Event.handlerCall ins ∉ l := by
  rw [handlerCall_mem_iff, h]
  simp

@[simp] theorem validate_not_mem_brEvents {ch : Channel} {c : ContractSpec} {d : JsValue} :
    Event.validate ch ∉ brEvents c d :=
  validate_not_mem_of_nil (validatedChannels_brEvents c d)

@[simp] theorem validate_not_mem_ueEvents {ch : Channel} {c : ContractSpec} {v : JsValue} :
    Event.validate ch ∉ ueEvents c v :=
  validate_not_mem_of_nil (validatedChannels_ueEvents c v)

@[simp] theorem validate_not_mem_catchBlock {ch : Channel} {c : ContractSpec} {err : JsError} :
    Event.validate ch ∉ catchBlock c err :=
  validate_not_mem_of_nil (validatedChannels_catchBlock c err)

@[simp] theorem validate_not_mem_finallyBlock {ch : Channel} {st : ContractContext}
    {logs : List LogParams} :
    Event.validate ch ∉ finallyBlock st logs :=
  validate_not_mem_of_nil (validatedChannels_finallyBlock st logs)

@[simp] theorem handlerCall_not_mem_brEvents {ins : Inputs} {c : ContractSpec} {d : JsValue} :
    Event.handlerCall ins ∉ brEvents c d :=
  handlerCall_not_mem_of_nil (handlerCalls_brEvents c d)

@[simp] theorem handlerCall_not_mem_ueEvents {ins : Inputs} {c : ContractSpec} {v : JsValue} :
    Event.handlerCall ins ∉ ueEvents c v :=
  handlerCall_not_mem_of_nil (handlerCalls_ueEvents c v)

@[simp] theorem handlerCall_not_mem_catchBlock {ins : Inputs} {c : ContractSpec}
    {err : JsError} :
    Event.handlerCall ins ∉ catchBlock c err :=
  handlerCall_not_mem_of_nil (handlerCalls_catchBlock c err)

@[simp] theorem handlerCall_not_mem_finallyBlock {ins : Inputs} {st : ContractContext}
    {logs : List LogParams} :
    Event.handlerCall ins ∉ finallyBlock st logs :=
  handlerCall_not_mem_of_nil (handlerCalls_finallyBlock st logs)

/-- Master decomposition of one invocation's trace: some prefix without
`res.json` or sink calls, then the single `res.json` with the decided
envelope, then exactly the finally block on the accumulated logs; the
envelope is the catch-block envelope of the escaped error, or the success
envelope holding the handler's returned value. -/
theorem contract_master (c : ContractSpec) (st : ContractContext) (req : Request) :
    ∃ pre env, contract c st req =
        pre ++ Event.resJson env :: finallyBlock st (requestLogs c req) ∧
      resJsonEvents pre = [] ∧ sinkCalls pre = [] ∧
      ((∃ err, (tryBlock c req).2.2 = some err ∧
          env = { ok := false, data := none, errors := errMsgs err }) ∨
       ((tryBlock c req).2.2 = none ∧ ∃ ins d,
          Event.handlerCall ins ∈ pre ∧ (c.handler ins).2 = Except.ok d ∧
          env = { ok := true, data := some d, errors := [] })) := by
  rcases hq : parseStep c.query req.query with ze | q
  · have ht := tryBlock_qerr hq
    refine ⟨parseEvents c.query Channel.query ++ catchPre c (.zodError ze),
      { ok := false, data := none, errors := errMsgs (.zodError ze) },
      ?_, by simp, by simp, Or.inl ⟨_, by rw [ht], rfl⟩⟩
    simp [contract, ht, catchBlock_eq, requestLogs]
  · rcases hp : parseStep c.params req.params with ze | p
    · have ht := tryBlock_perr hq hp
      refine ⟨parseEvents c.query Channel.query ++ parseEvents c.params Channel.params ++
        catchPre c (.zodError ze),
        { ok := false, data := none, errors := errMsgs (.zodError ze) },
        ?_, by simp, by simp, Or.inl ⟨_, by rw [ht], rfl⟩⟩
      simp [contract, ht, catchBlock_eq, requestLogs]
    · rcases hb : parseStep c.body req.body with ze | b
      · have ht := tryBlock_berr hq hp hb
        refine ⟨parseEvents c.query Channel.query ++ parseEvents c.params Channel.params ++
          parseEvents c.body Channel.body ++ catchPre c (.zodError ze),
          { ok := false, data := none, errors := errMsgs (.zodError ze) },
          ?_, by simp, by simp, Or.inl ⟨_, by rw [ht], rfl⟩⟩
        simp [contract, ht, catchBlock_eq, requestLogs]
      · rcases hh : headersResult c.headers req.headers with ze | hd
        · have ht := tryBlock_herr hq hp hb hh
          refine ⟨parseEvents c.query Channel.query ++ parseEvents c.params Channel.params ++
            parseEvents c.body Channel.body ++ [Event.validate Channel.headers] ++
            catchPre c (.zodError ze),
            { ok := false, data := none, errors := errMsgs (.zodError ze) },
            ?_, by simp, by simp, Or.inl ⟨_, by rw [ht], rfl⟩⟩
          simp [contract, ht, catchBlock_eq, requestLogs]
        · rcases hhand : (c.handler ⟨q, p, b, hd⟩).2 with e | d
          · have ht := tryBlock_handlerErr hq hp hb hh hhand
            refine ⟨parseEvents c.query Channel.query ++ parseEvents c.params Channel.params ++
              parseEvents c.body Channel.body ++ [Event.validate Channel.headers] ++
              [Event.handlerCall ⟨q, p, b, hd⟩] ++ catchPre c e,
              { ok := false, data := none, errors := errMsgs e },
              ?_, by simp, by simp, Or.inl ⟨_, by rw [ht], rfl⟩⟩
            simp [contract, ht, catchBlock_eq, requestLogs]
          · have ht := tryBlock_ok hq hp hb hh hhand
            refine ⟨parseEvents c.query Channel.query ++ parseEvents c.params Channel.params ++
              parseEvents c.body Channel.body ++ [Event.validate Channel.headers] ++
              [Event.handlerCall ⟨q, p, b, hd⟩] ++ brEvents c d,
              { ok := true, data := some d, errors := [] },
              ?_, by simp, by simp,
              Or.inr ⟨by rw [ht], ⟨q, p, b, hd⟩, d, by simp, hhand, rfl⟩⟩
            simp [contract, ht, requestLogs]

theorem sinkCall_mem_iff (lgs : List LogParams) (l : List Event) :
    Event.sinkCall lgs ∈ l ↔ lgs ∈ sinkCalls l := by
  induction l with
  | nil => simp
  | cons e tl ih => cases e <;> simp [ih, sinkCalls]

theorem validatedChannels_contract (c : ContractSpec) (st : ContractContext)
    (req : Request) :
    List.Sublist (validatedChannels (contract c st req))
      [Channel.query, Channel.params, Channel.body, Channel.headers] := by
  rcases hq : parseStep c.query req.query with ze | q
  · have ht := tryBlock_qerr hq
    simp [contract, ht]
    exact (validatedChannels_parseEvents_sublist c.query Channel.query).trans (by decide)
  · rcases hp : parseStep c.params req.params with ze | p
    · have ht := tryBlock_perr hq hp
      simp [contract, ht]
      exact ((validatedChannels_parseEvents_sublist c.query Channel.query).append
        (validatedChannels_parseEvents_sublist c.params Channel.params)).trans (by decide)
    · rcases hb : parseStep c.body req.body with ze | b
      · have ht := tryBlock_berr hq hp hb
        simp [contract, ht]
        exact ((validatedChannels_parseEvents_sublist c.query Channel.query).append
          ((validatedChannels_parseEvents_sublist c.params Channel.params).append
            (validatedChannels_parseEvents_sublist c.body Channel.body))).trans (by decide)
      · rcases hh : headersResult c.headers req.headers with ze | hd
        · have ht := tryBlock_herr hq hp hb hh
          simp [contract, ht]
          exact ((validatedChannels_parseEvents_sublist c.query Channel.query).append
            ((validatedChannels_parseEvents_sublist c.params Channel.params).append
              ((validatedChannels_parseEvents_sublist c.body Channel.body).append
                (List.Sublist.refl [Channel.headers])))).trans (by decide)
        · rcases hhand : (c.handler ⟨q, p, b, hd⟩).2 with e | d
          · have ht := tryBlock_handlerErr hq hp hb hh hhand
            simp [contract, ht]
            exact ((validatedChannels_parseEvents_sublist c.query Channel.query).append
              ((validatedChannels_parseEvents_sublist c.params Channel.params).append
                ((validatedChannels_parseEvents_sublist c.body Channel.body).append
                  (List.Sublist.refl [Channel.headers])))).trans (by decide)
          · have ht := tryBlock_ok hq hp hb hh hhand
            simp [contract, ht]
            exact ((validatedChannels_parseEvents_sublist c.query Channel.query).append
              ((validatedChannels_parseEvents_sublist c.params Channel.params).append
                ((validatedChannels_parseEvents_sublist c.body Channel.body).append
                  (List.Sublist.refl [Channel.headers])))).trans (by decide)

/-- C10: for every invocation of the built request handler, `res.json` is
invoked exactly once — never zero times and never more than once —
whichever of the four outcome branches is taken. -/
theorem resJson_called_exactly_once (c : ContractSpec) (st : ContractContext)
    (req : Request) :
    ∃ env, resJsonEvents (contract c st req) = [env] := by
  obtain ⟨pre, env, heq, hpre, -, -⟩ := contract_master c st req
  exact ⟨env, by simp [heq, hpre]⟩

/-- C9: a failure of the log-flush stage never affects the response: the
envelopes passed to `res.json` are the same whatever the logger slot holds
(in particular under a failing sink), and with no sink configured the flush
is only the `"No logger defined"` diagnostic — the request still completes
with its response. -/
theorem sink_failure_never_affects_response (c : ContractSpec) (st : ContractContext)
    (req : Request) :
    resJsonEvents (contract c st req) =
      resJsonEvents (contract c { logger := none } req) ∧
    Event.consoleLog "No logger defined" ∈ contract c { logger := none } req ∧
    sinkCalls (contract c { logger := none } req) = [] := by
  refine ⟨?_, ?_, ?_⟩
  · unfold contract
    rcases (tryBlock c req).2.2 with _ | e <;> simp
  · obtain ⟨pre, env, heq, -, -, -⟩ := contract_master c { logger := none } req
    rw [heq]
    simp [finallyBlock]
  · obtain ⟨pre, env, heq, -, hsc, -⟩ := contract_master c { logger := none } req
    rw [heq]
    simp [hsc, finallyBlock]

/-- C6: for every request and every outcome branch, the log events
accumulated via `ctx.log` are delivered to the configured sink exactly
once, strictly after the `res.json` call that decides the response — and
the sink call happens even when the accumulated sequence is empty. -/
theorem logs_flushed_once_after_response (c : ContractSpec) (f : LoggingFunction)
    (req : Request) :
    sinkCalls (contract c { logger := some f } req) = [requestLogs c req] ∧
    ∃ pre post env, contract c { logger := some f } req =
        pre ++ Event.resJson env :: post ∧
      Event.sinkCall (requestLogs c req) ∈ post ∧
      (∀ lgs, Event.sinkCall lgs ∉ pre) := by
  obtain ⟨pre, env, heq, -, hsc, -⟩ := contract_master c { logger := some f } req
  refine ⟨?_, pre, finallyBlock { logger := some f } (requestLogs c req), env, heq,
    sinkCall_mem_finallyBlock_some _ rfl, ?_⟩
  · rw [heq]
    simp [hsc, sinkCalls_finallyBlock_some _ rfl]
  · intro lgs hmem
    rw [sinkCall_mem_iff, hsc] at hmem
    simp at hmem

/-- C1: every envelope passed to `res.json` satisfies the exclusivity
invariant — `ok = true` implies `errors` is empty and `data` is exactly the
value the handler returned (and the output validator `result` is never
consulted, so no coercion happens), while `ok = false` implies `data` is
null and `errors` is nonempty. -/
theorem envelope_exclusivity (c : ContractSpec) (st : ContractContext) (req : Request)
    (env : Envelope) (h : Event.resJson env ∈ contract c st req) :
    (env.ok = true → env.errors = [] ∧ ∃ ins d,
        Event.handlerCall ins ∈ contract c st req ∧
        (c.handler ins).2 = Except.ok d ∧ env.data = some d) ∧
    (env.ok = false → env.data = none ∧ env.errors ≠ []) ∧
    (∀ r, contract { c with result := r } st req = contract c st req) := by
  obtain ⟨pre, env0, heq, hpre, -, hcase⟩ := contract_master c st req
  have henv : env = env0 := by
    rw [resJson_mem_iff, heq] at h
    simpa [hpre] using h
  subst henv
  refine ⟨?_, ?_, fun r => rfl⟩
  · intro hok
    rcases hcase with ⟨err, -, henv0⟩ | ⟨-, ins, d, hmem, hkd, henv0⟩
    · subst henv0
      simp at hok
    · subst henv0
      exact ⟨rfl, ins, d, by rw [heq]; exact List.mem_append_left _ hmem, hkd, rfl⟩
  · intro hok
    rcases hcase with ⟨err, -, henv0⟩ | ⟨-, ins, d, hmem, hkd, henv0⟩
    · subst henv0
      exact ⟨rfl, errMsgs_ne_nil err⟩
    · subst henv0
      simp at hok

theorem resJsonEvents_contract_of_err {c : ContractSpec} {st : ContractContext}
    {req : Request} {err : JsError} (h : (tryBlock c req).2.2 = some err) :
    resJsonEvents (contract c st req) =
      [{ ok := false, data := none, errors := errMsgs err }] := by
  obtain ⟨pre, env, heq, hpre, -, hcase⟩ := contract_master c st req
  rcases hcase with ⟨err2, he2, henv⟩ | ⟨hn, -⟩
  · rw [he2] at h
    injection h with h
    subst h
    subst henv
    simp [heq, hpre]
  · rw [hn] at h
    exact absurd h (by simp)

/-- C2: input validation is attempted in the fixed order query → params →
body → headers (the executed parses always form a subsequence of that
order), and when a channel's parse fails on its raw field, no parse of any
later channel is executed and the handler is never invoked. -/
theorem validation_order_short_circuit (c : ContractSpec) (st : ContractContext)
    (req : Request) (ch : Channel) (ze : ZodError)
    (h : channelRes c req ch = .error ze) :
    (∀ ch', chIdx ch < chIdx ch' → Event.validate ch' ∉ contract c st req) ∧
    (∀ ins, Event.handlerCall ins ∉ contract c st req) ∧
    List.Sublist (validatedChannels (contract c st req))
      [Channel.query, Channel.params, Channel.body, Channel.headers] := by
  cases ch with
  | query =>
    simp only [channelRes] at h
    have ht := tryBlock_qerr h
    refine ⟨fun ch' hidx => ?_, fun ins => ?_, validatedChannels_contract c st req⟩
    · cases ch' <;> first
        | exact absurd hidx (by decide)
        | simp [contract, ht]
    · simp [contract, ht]
  | params =>
    simp only [channelRes] at h
    rcases hq : parseStep c.query req.query with ze' | q
    · have ht := tryBlock_qerr hq
      refine ⟨fun ch' hidx => ?_, fun ins => ?_, validatedChannels_contract c st req⟩
      · cases ch' <;> first
          | exact absurd hidx (by decide)
          | simp [contract, ht]
      · simp [contract, ht]
    · have ht := tryBlock_perr hq h
      refine ⟨fun ch' hidx => ?_, fun ins => ?_, validatedChannels_contract c st req⟩
      · cases ch' <;> first
          | exact absurd hidx (by decide)
          | simp [contract, ht]
      · simp [contract, ht]
  | body =>
    simp only [channelRes] at h
    rcases hq : parseStep c.query req.query with ze' | q
    · have ht := tryBlock_qerr hq
      refine ⟨fun ch' hidx => ?_, fun ins => ?_, validatedChannels_contract c st req⟩
      · cases ch' <;> first
          | exact absurd hidx (by decide)
          | simp [contract, ht]
      · simp [contract, ht]
    · rcases hp : parseStep c.params req.params with ze' | p
      · have ht := tryBlock_perr hq hp
        refine ⟨fun ch' hidx => ?_, fun ins => ?_, validatedChannels_contract c st req⟩
        · cases ch' <;> first
            | exact absurd hidx (by decide)
            | simp [contract, ht]
        · simp [contract, ht]
      · have ht := tryBlock_berr hq hp h
        refine ⟨fun ch' hidx => ?_, fun ins => ?_, validatedChannels_contract c st req⟩
        · cases ch' <;> first
            | exact absurd hidx (by decide)
            | simp [contract, ht]
        · simp [contract, ht]
  | headers =>
    simp only [channelRes] at h
    rcases hq : parseStep c.query req.query with ze' | q
    · have ht := tryBlock_qerr hq
      refine ⟨fun ch' hidx => ?_, fun ins => ?_, validatedChannels_contract c st req⟩
      · cases ch' <;> exact absurd hidx (by decide)
      · simp [contract, ht]
    · rcases hp : parseStep c.params req.params with ze' | p
      · have ht := tryBlock_perr hq hp
        refine ⟨fun ch' hidx => ?_, fun ins => ?_, validatedChannels_contract c st req⟩
        · cases ch' <;> exact absurd hidx (by decide)
        · simp [contract, ht]
      · rcases hb : parseStep c.body req.body with ze' | b
        · have ht := tryBlock_berr hq hp hb
          refine ⟨fun ch' hidx => ?_, fun ins => ?_, validatedChannels_contract c st req⟩
          · cases ch' <;> exact absurd hidx (by decide)
          · simp [contract, ht]
        · have ht := tryBlock_herr hq hp hb h
          refine ⟨fun ch' hidx => ?_, fun ins => ?_, validatedChannels_contract c st req⟩
          · cases ch' <;> exact absurd hidx (by decide)
          · simp [contract, ht]

/-- C4: a handler that calls the context's error capability with a message
and a numeric code — that is, throws `ContractError message code` — yields
`{ok:false, data:null, errors:[message]}` with exactly one error entry; the
equation holds for every numeric code and its right-hand side does not
mention the code, so the code appears nowhere in the envelope. -/
theorem business_error_envelope (c : ContractSpec) (st : ContractContext)
    (req : Request) (q p b hd : JsValue) (m : String) (code : Int)
    (hq : parseStep c.query req.query = .ok q)
    (hp : parseStep c.params req.params = .ok p)
    (hb : parseStep c.body req.body = .ok b)
    (hh : headersResult c.headers req.headers = .ok hd)
    (hhand : (c.handler ⟨q, p, b, hd⟩).2 = .error (.contractError m code)) :
    resJsonEvents (contract c st req) =
      [{ ok := false, data := none, errors := [m] }] := by
  have ht := tryBlock_handlerErr hq hp hb hh hhand
  simp [contract, ht, resJsonEvents_catchBlock, errMsgs]

/-- C5: a handler that throws anything that is neither a shape validation
error nor a business error yields
`{ok:false, data:null, errors:["Something went wrong"]}` with no detail of
the underlying error; when `onUnexpectedError` is configured it is invoked
exactly once with the original error value, and the envelope equation holds
for every hook — failing or not — so a hook failure never propagates and
never changes the envelope. -/
theorem unexpected_error_envelope (c : ContractSpec) (st : ContractContext)
    (req : Request) (q p b hd v : JsValue)
    (hq : parseStep c.query req.query = .ok q)
    (hp : parseStep c.params req.params = .ok p)
    (hb : parseStep c.body req.body = .ok b)
    (hh : headersResult c.headers req.headers = .ok hd)
    (hhand : (c.handler ⟨q, p, b, hd⟩).2 = .error (.other v)) :
    resJsonEvents (contract c st req) =
      [{ ok := false, data := none, errors := ["Something went wrong"] }] ∧
    (∀ f, c.onUnexpectedError = some f →
      unexpectedCalls (contract c st req) = [v]) ∧
    (c.onUnexpectedError = none → unexpectedCalls (contract c st req) = []) := by
  have ht := tryBlock_handlerErr hq hp hb hh hhand
  refine ⟨?_, ?_, ?_⟩
  · simp [contract, ht, resJsonEvents_catchBlock, errMsgs]
  · intro f hf
    simp [contract, ht, catchBlock, unexpectedCalls_ueEvents_some v hf]
  · intro hf
    simp [contract, ht, catchBlock, unexpectedCalls_ueEvents_none v hf]

/-- C8: when the handler succeeds and the configured `beforeResponse` hook
fails, the failure is caught — the hook is invoked, the diagnostic is
written — and the success envelope with the handler's result is still the
one and only `res.json` payload, unchanged. -/
theorem beforeResponse_failure_preserves_success (c : ContractSpec)
    (st : ContractContext) (req : Request) (q p b hd d : JsValue)
    (hk : JsValue → Except JsValue Unit) (e : JsValue)
    (hbrh : c.beforeResponse = some hk) (hbre : hk d = .error e)
    (hq : parseStep c.query req.query = .ok q)
    (hp : parseStep c.params req.params = .ok p)
    (hb : parseStep c.body req.body = .ok b)
    (hh : headersResult c.headers req.headers = .ok hd)
    (hhand : (c.handler ⟨q, p, b, hd⟩).2 = .ok d) :
    resJsonEvents (contract c st req) =
      [{ ok := true, data := some d, errors := [] }] ∧
    Event.beforeResponseCall d ∈ contract c st req ∧
    Event.consoleError "Error occured in beforeResponse hook:" ∈ contract c st req := by
  have ht := tryBlock_ok hq hp hb hh hhand
  refine ⟨?_, ?_, ?_⟩
  · simp [contract, ht]
  · simp [contract, ht, brEvents, hbrh, hbre]
  · simp [contract, ht, brEvents, hbrh, hbre]

/-- C7: with no validators configured, the headers channel is still
validated — against the generic string-to-string mapping
`z.record(z.string())` — while no other channel is; and when that
validation succeeds the handler receives the raw query, params and body
unchanged together with the validated headers.  When it fails, the response
is the validation-failure envelope. -/
theorem no_validators_passthrough (c : ContractSpec) (st : ContractContext)
    (req : Request)
    (hcq : c.query = none) (hcp : c.params = none) (hcb : c.body = none)
    (hch : c.headers = none) :
    Event.validate Channel.headers ∈ contract c st req ∧
    (∀ ch, ch ≠ Channel.headers → Event.validate ch ∉ contract c st req) ∧
    (∀ hd, zRecordString req.headers = .ok hd →
      Event.handlerCall ⟨req.query, req.params, req.body, hd⟩ ∈ contract c st req) ∧
    (∀ ze, zRecordString req.headers = .error ze →
      resJsonEvents (contract c st req) =
        [{ ok := false, data := none, errors := validationErrors ze }]) := by
  have hq : parseStep c.query req.query = .ok req.query := by simp [parseStep, hcq]
  have hp : parseStep c.params req.params = .ok req.params := by simp [parseStep, hcp]
  have hb : parseStep c.body req.body = .ok req.body := by simp [parseStep, hcb]
  have hhr : headersResult c.headers req.headers = zRecordString req.headers := by
    simp [headersResult, hch]
  rcases hzr : zRecordString req.headers with ze | hd
  · have ht := tryBlock_herr hq hp hb (hhr.trans hzr)
    refine ⟨by simp [contract, ht], ?_, ?_, ?_⟩
    · intro ch hne
      simp [contract, ht, hcq, hcp, hcb, parseEvents, hne]
    · intro hd hok
      exact absurd hok (by simp)
    · intro ze' herr
      injection herr with herr
      subst herr
      simp [contract, ht, resJsonEvents_catchBlock, errMsgs]
  · rcases hhand : (c.handler ⟨req.query, req.params, req.body, hd⟩).2 with e | d
    · have ht := tryBlock_handlerErr hq hp hb (hhr.trans hzr) hhand
      refine ⟨by simp [contract, ht], ?_, ?_, ?_⟩
      · intro ch hne
        simp [contract, ht, hcq, hcp, hcb, parseEvents, hne]
      · intro hd' hok
        injection hok with hok
        subst hok
        simp [contract, ht]
      · intro ze' herr
        exact absurd herr (by simp)
    · have ht := tryBlock_ok hq hp hb (hhr.trans hzr) hhand
      refine ⟨by simp [contract, ht], ?_, ?_, ?_⟩
      · intro ch hne
        simp [contract, ht, hcq, hcp, hcb, parseEvents, hne]
      · intro hd' hok
        injection hok with hok
        subst hok
        simp [contract, ht]
      · intro ze' herr
        exact absurd herr (by simp)

/-- C3 (amended): when validation raises a structured error whose issue
list is nonempty and none of whose rendered issue messages contains the
separator `";;;"` or ends with the separator character `';'`, the response
is `{ok:false, data:null, errors}` with exactly one message per reported
issue, in the order the issues were reported. -/
theorem validation_errors_one_per_issue (c : ContractSpec) (st : ContractContext)
    (req : Request) (ze : ZodError)
    (herr : (tryBlock c req).2.2 = some (.zodError ze))
    (hne : ze.issues ≠ [])
    (hgood : ∀ i ∈ ze.issues, hasSemis (issueText i).toList = false ∧
      ((issueText i).toList).getLast? ≠ some ';') :
    resJsonEvents (contract c st req) =
      [{ ok := false, data := none, errors := ze.issues.map issueText }] := by
  have hval : validationErrors ze = ze.issues.map issueText := by
    unfold validationErrors
    rw [splitSemis_intercalate _ (by simpa using hne)
      (fun m hm => by
        obtain ⟨i, hi, rfl⟩ := List.mem_map.1 hm
        exact hgood i hi)]
    rw [List.map_map]
    rfl
  rw [resJsonEvents_contract_of_err herr]
  simp [errMsgs, hval]

/-- Concrete issue whose message contains the separator `";;;"`. -/
def ceIssue : ZodIssue := { path := "", message := "a;;;b" }

/-- Spec whose query validator reports exactly the one issue `ceIssue`. -/
def ceSpec : ContractSpec :=
  { query := some (fun _ => .error { issues := [ceIssue] }),
    params := none, body := none, headers := none, result := none,
    handler := fun _ => ([], .ok (.prim .null)),
    onUnexpectedError := none, beforeResponse := none }

/-- Request for the mis-split counterexample. -/
def ceReq : Request :=
  { query := .prim .null, params := .prim .null, body := .prim .null,
    headers := .obj [] }

/-- C3 is false as stated: the validator reports exactly one issue, whose
message `"a;;;b"` contains the separator, and the envelope carries two
error entries `["a", "b"]` — not one entry per reported issue. -/
theorem validation_errors_missplit_counterexample :
    resJsonEvents (contract ceSpec { logger := none } ceReq) =
      [{ ok := false, data := none, errors := ["a", "b"] }] ∧
    validationErrors { issues := [ceIssue] } = ["a", "b"] ∧
    ([ceIssue] : List ZodIssue).length = 1 ∧
    (["a", "b"] : List String).length ≠ ([ceIssue] : List ZodIssue).length :=
  ⟨by decide, by decide, rfl, by decide⟩

/-! ### Witnesses: concrete runs establishing that the hypotheses of the
claims above are satisfiable -/

/-- Spec with no validators, no hooks, and a handler returning a string. -/
def w1spec : ContractSpec :=
  { query := none, params := none, body := none, headers := none, result := none,
    handler := fun _ => ([], .ok (.prim (.str "hi"))),
    onUnexpectedError := none, beforeResponse := none }

/-- Request with null raw fields and an empty headers object. -/
def w1req : Request :=
  { query := .prim .null, params := .prim .null, body := .prim .null,
    headers := .obj [] }

/-- The success envelope of `w1spec` on `w1req`. -/
def w1env : Envelope := { ok := true, data := some (.prim (.str "hi")), errors := [] }

theorem envelope_exclusivity_witness :
    Event.resJson w1env ∈ contract w1spec { logger := none } w1req ∧
    ((w1env.ok = true → w1env.errors = [] ∧ ∃ ins d,
        Event.handlerCall ins ∈ contract w1spec { logger := none } w1req ∧
        (w1spec.handler ins).2 = Except.ok d ∧ w1env.data = some d) ∧
     (w1env.ok = false → w1env.data = none ∧ w1env.errors ≠ []) ∧
     (∀ r, contract { w1spec with result := r } { logger := none } w1req =
        contract w1spec { logger := none } w1req)) :=
  ⟨by decide, envelope_exclusivity w1spec { logger := none } w1req w1env (by decide)⟩

/-- A validation error with one issue on the query field. -/
def w2ze : ZodError := { issues := [{ path := "q", message := "bad" }] }

/-- Spec whose query validator always fails with `w2ze`. -/
def w2spec : ContractSpec :=
  { query := some (fun _ => .error w2ze),
    params := none, body := none, headers := none, result := none,
    handler := fun _ => ([], .ok (.prim .null)),
    onUnexpectedError := none, beforeResponse := none }

/-- Request for the short-circuit witness. -/
def w2req : Request :=
  { query := .prim .null, params := .prim .null, body := .prim .null,
    headers := .obj [] }

theorem validation_order_short_circuit_witness :
    channelRes w2spec w2req Channel.query = .error w2ze ∧
    ((∀ ch', chIdx Channel.query < chIdx ch' →
        Event.validate ch' ∉ contract w2spec { logger := none } w2req) ∧
     (∀ ins, Event.handlerCall ins ∉ contract w2spec { logger := none } w2req) ∧
     List.Sublist (validatedChannels (contract w2spec { logger := none } w2req))
       [Channel.query, Channel.params, Channel.body, Channel.headers]) :=
  ⟨rfl, validation_order_short_circuit w2spec { logger := none } w2req
    Channel.query w2ze rfl⟩

/-- A validation error with one ordinarily-rendered issue. -/
def w3ze : ZodError := { issues := [{ path := "name", message := "Required" }] }

/-- Spec whose query validator always fails with `w3ze`. -/
def w3spec : ContractSpec :=
  { query := some (fun _ => .error w3ze),
    params := none, body := none, headers := none, result := none,
    handler := fun _ => ([], .ok (.prim .null)),
    onUnexpectedError := none, beforeResponse := none }

/-- Request for the one-message-per-issue witness. -/
def w3req : Request :=
  { query := .prim .null, params := .prim .null, body := .prim .null,
    headers := .obj [] }

theorem validation_errors_one_per_issue_witness :
    ((tryBlock w3spec w3req).2.2 = some (.zodError w3ze) ∧
     w3ze.issues ≠ [] ∧
     (∀ i ∈ w3ze.issues, hasSemis (issueText i).toList = false ∧
        ((issueText i).toList).getLast? ≠ some ';')) ∧
    resJsonEvents (contract w3spec { logger := none } w3req) =
      [{ ok := false, data := none, errors := w3ze.issues.map issueText }] :=
  ⟨⟨rfl, by decide, by decide⟩,
    validation_errors_one_per_issue w3spec { logger := none } w3req w3ze
      rfl (by decide) (by decide)⟩

/-- Spec whose handler raises the business error `("bad input", 422)`. -/
def w4spec : ContractSpec :=
  { query := none, params := none, body := none, headers := none, result := none,
    handler := fun _ => ([], .error (.contractError "bad input" 422)),
    onUnexpectedError := none, beforeResponse := none }

/-- Request for the business-error witness. -/
def w4req : Request :=
  { query := .prim .null, params := .prim .null, body := .prim .null,
    headers := .obj [] }

theorem business_error_envelope_witness :
    (parseStep w4spec.query w4req.query = .ok (.prim .null) ∧
     parseStep w4spec.params w4req.params = .ok (.prim .null) ∧
     parseStep w4spec.body w4req.body = .ok (.prim .null) ∧
     headersResult w4spec.headers w4req.headers = .ok (.obj []) ∧
     (w4spec.handler ⟨.prim .null, .prim .null, .prim .null, .obj []⟩).2 =
       .error (.contractError "bad input" 422)) ∧
    resJsonEvents (contract w4spec { logger := none } w4req) =
      [{ ok := false, data := none, errors := ["bad input"] }] :=
  ⟨⟨rfl, rfl, rfl, rfl, rfl⟩,
    business_error_envelope w4spec { logger := none } w4req
      (.prim .null) (.prim .null) (.prim .null) (.obj []) "bad input" 422
      rfl rfl rfl rfl rfl⟩

/-- Spec whose handler throws an arbitrary value and whose
`onUnexpectedError` hook itself fails. -/
def w5spec : ContractSpec :=
  { query := none, params := none, body := none, headers := none, result := none,
    handler := fun _ => ([], .error (.other (.prim (.str "boom")))),
    onUnexpectedError := some (fun _ => .error (.prim .null)),
    beforeResponse := none }

/-- Request for the unexpected-error witness. -/
def w5req : Request :=
  { query := .prim .null, params := .prim .null, body := .prim .null,
    headers := .obj [] }

theorem unexpected_error_envelope_witness :
    (parseStep w5spec.query w5req.query = .ok (.prim .null) ∧
     (w5spec.handler ⟨.prim .null, .prim .null, .prim .null, .obj []⟩).2 =
       .error (.other (.prim (.str "boom")))) ∧
    (resJsonEvents (contract w5spec { logger := none } w5req) =
      [{ ok := false, data := none, errors := ["Something went wrong"] }] ∧
     (∀ f, w5spec.onUnexpectedError = some f →
       unexpectedCalls (contract w5spec { logger := none } w5req) =
         [.prim (.str "boom")]) ∧
     (w5spec.onUnexpectedError = none →
       unexpectedCalls (contract w5spec { logger := none } w5req) = [])) :=
  ⟨⟨rfl, rfl⟩,
    unexpected_error_envelope w5spec { logger := none } w5req
      (.prim .null) (.prim .null) (.prim .null) (.obj []) (.prim (.str "boom"))
      rfl rfl rfl rfl rfl⟩

/-- Spec with no validators whose handler echoes its headers input. -/
def w7spec : ContractSpec :=
  { query := none, params := none, body := none, headers := none, result := none,
    handler := fun ins => ([], .ok ins.headers),
    onUnexpectedError := none, beforeResponse := none }

/-- Request whose headers object maps `"x"` to the string `"y"`. -/
def w7req : Request :=
  { query := .prim .null, params := .prim .null, body := .prim .null,
    headers := .obj [("x", .str "y")] }

theorem no_validators_passthrough_witness :
    (w7spec.query = none ∧ w7spec.params = none ∧ w7spec.body = none ∧
     w7spec.headers = none) ∧
    (Event.validate Channel.headers ∈ contract w7spec { logger := none } w7req ∧
     (∀ ch, ch ≠ Channel.headers →
       Event.validate ch ∉ contract w7spec { logger := none } w7req) ∧
     (∀ hd, zRecordString w7req.headers = .ok hd →
       Event.handlerCall ⟨w7req.query, w7req.params, w7req.body, hd⟩ ∈
         contract w7spec { logger := none } w7req) ∧
     (∀ ze, zRecordString w7req.headers = .error ze →
       resJsonEvents (contract w7spec { logger := none } w7req) =
         [{ ok := false, data := none, errors := validationErrors ze }])) :=
  ⟨⟨rfl, rfl, rfl, rfl⟩,
    no_validators_passthrough w7spec { logger := none } w7req rfl rfl rfl rfl⟩

/-- Spec whose handler succeeds and whose `beforeResponse` hook fails. -/
def w8spec : ContractSpec :=
  { query := none, params := none, body := none, headers := none, result := none,
    handler := fun _ => ([], .ok (.prim (.num 7))),
    onUnexpectedError := none,
    beforeResponse := some (fun _ => .error (.prim (.str "hookboom"))) }

/-- Request for the beforeResponse-failure witness. -/
def w8req : Request :=
  { query := .prim .null, params := .prim .null, body := .prim .null,
    headers := .obj [] }

theorem beforeResponse_failure_preserves_success_witness :
    (w8spec.beforeResponse = some (fun _ => .error (.prim (.str "hookboom"))) ∧
     (w8spec.handler ⟨.prim .null, .prim .null, .prim .null, .obj []⟩).2 =
       .ok (.prim (.num 7))) ∧
    (resJsonEvents (contract w8spec { logger := none } w8req) =
      [{ ok := true, data := some (.prim (.num 7)), errors := [] }] ∧
     Event.beforeResponseCall (.prim (.num 7)) ∈
       contract w8spec { logger := none } w8req ∧
     Event.consoleError "Error occured in beforeResponse hook:" ∈
       contract w8spec { logger := none } w8req) :=
  ⟨⟨rfl, rfl⟩,
    beforeResponse_failure_preserves_success w8spec { logger := none } w8req
      (.prim .null) (.prim .null) (.prim .null) (.obj []) (.prim (.num 7))
      (fun _ => .error (.prim (.str "hookboom"))) (.prim (.str "hookboom"))
      rfl rfl rfl rfl rfl rfl rfl⟩
